import Mathlib

/-
Verification of the dual-backend git synchronization engine
(src/app/src-tauri/src/lib.rs, modules `git_cli` and `git_native`).

The embedding below translates the URL-handling helpers, the credential
callback, and the repository operations `git_pull`, `git_sync` and
`git_checkout_branch` of the embedded (libgit2) backend, plus the
process-backend `git_sync`, into pure Lean functions.  Calls into the
external git library (fetch outcome, merge analysis, checkout content)
are modelled as explicit environment parameters, since that library is
an external collaborator and not part of this repository's code.
Strings are represented as `List Char` so that the character-level URL
manipulations of the source can be reasoned about by induction.
-/

set_option autoImplicit false

namespace Cafezin

abbrev Str := List Char

/-- Boolean test that `p` is a leading segment of `s` (Rust `str::starts_with`). -/
def prefB : Str → Str → Bool
  | [], _ => true
  | _ :: _, [] => false
  | a :: as, b :: bs => a = b && prefB as bs

/-- Boolean substring test (Rust `str::contains`). -/
def substrB (p s : Str) : Bool :=
  match s with
  | [] => p.isEmpty
  | _ :: rest => prefB p s || substrB p rest

/-- Rust `str::strip_prefix`: `some rest` when `s = p ++ rest`, otherwise `none`. -/
def stripPre : Str → Str → Option Str
  | [], s => some s
  | _ :: _, [] => none
  | a :: as, b :: bs => if a = b then stripPre as bs else none

/-- Split at the first occurrence of `c` (Rust `str::find` plus slicing):
`some (before, after)` with the separator removed, `none` if `c` is absent. -/
def splitAtChar (c : Char) : Str → Option (Str × Str)
  | [] => none
  | d :: rest =>
    if d = c then some ([], rest)
    else
      match splitAtChar c rest with
      | some (pre, post) => some (d :: pre, post)
      | none => none

/-- `git_native::clean_url`: strip any embedded credentials from an HTTPS URL.
For a URL of the form `https://…`, everything up to and including the first
`@` of the remainder is dropped; any other URL is returned unchanged. -/
def clean_url (u : Str) : Str :=
  match stripPre ("https://".data) u with
  | some rest =>
    let hostPath :=
      match splitAtChar '@' rest with
      | some (_, post) => post
      | none => rest
    ("https://".data) ++ hostPath
  | none => u

/-- `git_native::inject_token`: intentionally an alias of `clean_url` — the
token is never embedded in the URL, it is only carried by the credential
callback. -/
def inject_token (u : Str) (_tok : Str) : Str :=
  clean_url u

/-- `git_native::normalize_url`: convert an SSH shorthand beginning with the
literal prefix `git@` into HTTPS form — `git@host:path` becomes
`https://host/path`; every other URL is returned unchanged. -/
def normalize_url (u : Str) : Str :=
  match stripPre ("git@".data) u with
  | some rest =>
    match splitAtChar ':' rest with
    | some (host, path) => ("https://".data) ++ host ++ '/' :: path
    | none => u
  | none => u

/-! ## Credential callback (`git_native::token_callbacks`)

The libgit2 credential callback is a closure over a mutable
`tried_userpass` flag.  We model one invocation as a pure function from
the request (whether `USER_PASS_PLAINTEXT` is among the allowed types)
and the flag to a response and the updated flag, and a whole network
call as the left-to-right processing of the host's request sequence. -/

/-- One credential request from the host: `userPass` is true when the allowed
credential types include `USER_PASS_PLAINTEXT`. -/
structure CredReq where
  userPass : Bool
deriving DecidableEq

/-- The callback's response: a plaintext username/token pair, the platform
default credential, or the hard authentication error raised on a repeated
user/password request. -/
inductive CredResult where
  | userpass (user tok : Str)
  | default
  | authError
deriving DecidableEq

/-- One invocation of the closure installed by `token_callbacks`:
mirrors the body of the `cb.credentials(move |url, username, allowed| …)`
closure, with `tried` playing the role of the captured `tried_userpass`. -/
def credCallback (tok : Str) (req : CredReq) (tried : Bool) : CredResult × Bool :=
  if req.userPass then
    if tried then (CredResult.authError, tried)
    else (CredResult.userpass ("x-oauth-basic".data) tok, true)
  else (CredResult.default, tried)

/-- Process a sequence of credential requests within a single network call,
threading the `tried_userpass` flag. -/
def runCreds (tok : Str) : List CredReq → Bool → List CredResult
  | [], _ => []
  | r :: rs, st =>
    let p := credCallback tok r st
    p.1 :: runCreds tok rs p.2

/-- The `tried_userpass` flag after processing a request list. -/
def stAfter : List CredReq → Bool → Bool
  | [], st => st
  | r :: rs, st => stAfter rs (st || r.userPass)

/-- Number of responses that actually hand out the username/token pair. -/
def providedCount : List CredResult → Nat
  | [] => 0
  | CredResult.userpass _ _ :: rest => providedCount rest + 1
  | CredResult.default :: rest => providedCount rest
  | CredResult.authError :: rest => providedCount rest

/-! ## Repository model and the embedded-backend operations

The repository state visible to the orchestration layer: the persisted
"origin" URL, the HEAD state, the local branch tips, the remote-tracking
refs and an abstract working-tree snapshot.  Outcomes of calls into
libgit2's network/merge machinery (fetch success, the post-fetch value of
the remote-tracking ref, the merge-analysis classification, the tree a
forced checkout produces) are environment parameters. -/

abbrev Oid := Nat

inductive HeadState where
  | unborn
  | detached
  | branch (name : Str)
deriving DecidableEq

structure Repo where
  originUrl : Option Str
  head : HeadState
  branches : List (Str × Oid)
  remoteRefs : List (Str × Oid)
  workTree : Nat
deriving DecidableEq

/-- First-match association lookup. -/
def lookupA {α : Type} (k : Str) : List (Str × α) → Option α
  | [] => none
  | (k', v) :: rest => if k = k' then some v else lookupA k rest

/-- Insert / overwrite a binding (new binding shadows older ones). -/
def setA {α : Type} (k : Str) (v : α) (m : List (Str × α)) : List (Str × α) :=
  (k, v) :: m

/-- Delete every binding of a key. -/
def removeA {α : Type} (k : Str) : List (Str × α) → List (Str × α)
  | [] => []
  | (k', v) :: rest => if k = k' then removeA k rest else (k', v) :: removeA k rest

/-- Effect of a successful fetch of branch `bn` on the remote-tracking refs:
the environment says whether `refs/remotes/origin/bn` ends up present
(`some oid`) or absent (`none`). -/
def setRef (bn : Str) (v : Option Oid) (m : List (Str × Oid)) : List (Str × Oid) :=
  match v with
  | some o => setA bn o m
  | none => removeA bn m

/-- Outcome classification returned by libgit2's `merge_analysis`:
`upToDate` / `fastForward` are the two flags the code tests; `normal`
covers every other classification (in particular a diverged history). -/
inductive MAnalysis where
  | upToDate
  | fastForward
  | normal
deriving DecidableEq

/-- Error kinds of the modelled operations (the source returns descriptive
strings; only the kind matters here). -/
inductive GErr where
  | noOrigin
  | fetchFailed
  | refNoTarget
  | detached
  | notFastForward
  | localRefMissing
  | stageFailed
  | commitFailed
deriving DecidableEq

/-- Success statuses returned by the modelled operations. -/
inductive GOk where
  | upToDate
  | pulled
  | synced
  | switched
deriving DecidableEq

/-- Result of an operation: the returned status, the final repository state,
and the trace of every URL written through `remote_set_url` in the
temporary-URL/restore protocol around the network call. -/
structure Out where
  res : Except GErr GOk
  repo : Repo
  writes : List Str

/-- `git_native::ensure_https_remote`: rewrite the persisted origin URL to its
SSH→HTTPS normalization when that changes it and is non-empty. -/
def ensure_https_remote (r : Repo) : Repo :=
  if normalize_url (r.originUrl.getD []) ≠ r.originUrl.getD []
      ∧ normalize_url (r.originUrl.getD []) ≠ [] then
    { r with originUrl := some (normalize_url (r.originUrl.getD [])) }
  else r

/-- Environment for `git_pull`: outcome of the fetch, the post-fetch value of
the remote-tracking ref of the current branch, the merge-analysis
classification, and the working tree a forced checkout of a commit yields. -/
structure PullEnv where
  fetchOk : Bool
  fetchedRef : Option Oid
  analysis : MAnalysis
  treeOf : Oid → Nat

/-- The URL passed to `remote_set_url` before the network call: the source
computes `inject_token(clean_url, tok)` when a token is present, and the
normalized URL otherwise. -/
def authUrlOf (token : Option Str) (cleanU : Str) : Str :=
  match token with
  | some tok => inject_token cleanU tok
  | none => cleanU

/-- Repository state after a successful fetch of branch `bn` inside
`git_pull` (remote-tracking refs updated, auth URL still set aside). -/
def pullFetched (env : PullEnv) (repo : Repo) (bn : Str) : Repo :=
  { ensure_https_remote repo with
      remoteRefs := setRef bn env.fetchedRef (ensure_https_remote repo).remoteRefs }

/-- `git_native::git_pull`, translated branch by branch from the source.
Every exit path records the final repository state (including the restored
origin URL) and the trace of `remote_set_url` writes. -/
def git_pull (env : PullEnv) (repo : Repo) (token : Option Str) : Out :=
  match (ensure_https_remote repo).head with
  | HeadState.unborn => ⟨Except.ok GOk.upToDate, ensure_https_remote repo, []⟩
  | HeadState.detached => ⟨Except.error GErr.detached, ensure_https_remote repo, []⟩
  | HeadState.branch bn =>
    match (ensure_https_remote repo).originUrl with
    | none => ⟨Except.error GErr.noOrigin, ensure_https_remote repo, []⟩
    | some ou =>
      match env.fetchOk with
      | true =>
        match lookupA bn (pullFetched env repo bn).remoteRefs with
        | none =>
          ⟨Except.error GErr.refNoTarget,
           { pullFetched env repo bn with originUrl := some (normalize_url ou) },
           [authUrlOf token (normalize_url ou), normalize_url ou]⟩
        | some remoteOid =>
          match env.analysis with
          | MAnalysis.upToDate =>
            ⟨Except.ok GOk.upToDate,
             { pullFetched env repo bn with originUrl := some (normalize_url ou) },
             [authUrlOf token (normalize_url ou), normalize_url ou]⟩
          | MAnalysis.fastForward =>
            match lookupA bn (ensure_https_remote repo).branches with
            | none =>
              ⟨Except.error GErr.localRefMissing,
               { pullFetched env repo bn with originUrl := some (normalize_url ou) },
               [authUrlOf token (normalize_url ou), normalize_url ou]⟩
            | some _ =>
              ⟨Except.ok GOk.pulled,
               { pullFetched env repo bn with
                   originUrl := some (normalize_url ou),
                   branches := setA bn remoteOid (ensure_https_remote repo).branches,
                   head := HeadState.branch bn,
                   workTree := env.treeOf remoteOid },
               [authUrlOf token (normalize_url ou), normalize_url ou]⟩
          | MAnalysis.normal =>
            ⟨Except.error GErr.notFastForward,
             { pullFetched env repo bn with originUrl := some (normalize_url ou) },
             [authUrlOf token (normalize_url ou), normalize_url ou]⟩
      | false =>
        ⟨Except.error GErr.fetchFailed,
         { ensure_https_remote repo with originUrl := some (normalize_url ou) },
         [authUrlOf token (normalize_url ou), normalize_url ou]⟩

/-- Environment for the embedded-backend `git_sync`: success of the staging
step, success of the commit step (with the new commit id), and the outcome
of the push attempt — which the implementation discards. -/
structure SyncEnv where
  stageOk : Bool
  commitOk : Bool
  newOid : Oid
  pushOk : Bool

/-- Repository state after the commit step of the embedded-backend `git_sync`:
the current branch (when HEAD points to one) advances to the new commit. -/
def commitStep (env : SyncEnv) (repo : Repo) : Repo :=
  match (ensure_https_remote repo).head with
  | HeadState.branch bn =>
    { ensure_https_remote repo with
        branches := setA bn env.newOid (ensure_https_remote repo).branches }
  | _ => ensure_https_remote repo

/-- `git_native::git_sync`, translated from the source: stage (propagating
failure), commit (propagating failure), then a best-effort push wrapped in
the temporary-URL/restore protocol. -/
def git_sync (env : SyncEnv) (repo : Repo) (token : Option Str) : Out :=
  match env.stageOk with
  | true =>
    match env.commitOk with
    | true =>
      match (ensure_https_remote repo).originUrl with
      | none => ⟨Except.ok GOk.synced, commitStep env repo, []⟩
      | some ou =>
        ⟨Except.ok GOk.synced,
         { commitStep env repo with originUrl := some (normalize_url ou) },
         [authUrlOf token (normalize_url ou), normalize_url ou]⟩
    | false => ⟨Except.error GErr.commitFailed, ensure_https_remote repo, []⟩
  | false => ⟨Except.error GErr.stageFailed, ensure_https_remote repo, []⟩

/-- Environment for `git_checkout_branch`: outcome of the best-effort fetch,
the post-fetch remote-tracking ref, and the checkout tree function. -/
structure CoEnv where
  fetchOk : Bool
  fetchedRef : Option Oid
  treeOf : Oid → Nat

/-- Repository state after the best-effort fetch inside `git_checkout_branch`:
remote-tracking refs updated only when the fetch succeeded. -/
def coFetched (env : CoEnv) (repo : Repo) (bn : Str) : Repo :=
  match env.fetchOk with
  | true =>
    { ensure_https_remote repo with
        remoteRefs := setRef bn env.fetchedRef (ensure_https_remote repo).remoteRefs }
  | false => ensure_https_remote repo

/-- `git_native::git_checkout_branch`, translated from the source. -/
def git_checkout_branch (env : CoEnv) (repo : Repo) (bn : Str) (token : Option Str) : Out :=
  match (ensure_https_remote repo).originUrl with
  | none => ⟨Except.error GErr.noOrigin, ensure_https_remote repo, []⟩
  | some ou =>
    match lookupA bn (coFetched env repo bn).remoteRefs with
    | none =>
      ⟨Except.error GErr.refNoTarget,
       { coFetched env repo bn with originUrl := some (normalize_url ou) },
       [authUrlOf token (normalize_url ou), normalize_url ou]⟩
    | some oid =>
      ⟨Except.ok GOk.switched,
       { coFetched env repo bn with
           originUrl := some (normalize_url ou),
           branches := setA bn oid (coFetched env repo bn).branches,
           head := HeadState.branch bn,
           workTree := env.treeOf oid },
       [authUrlOf token (normalize_url ou), normalize_url ou]⟩

/-- Environment for the process-backend `git_cli::git_sync`: exit status of
`git add -A`, of `git commit --allow-empty` and of `git push origin HEAD`.
The source consults only the first: the commit invocation's result is bound
to `_` and the push result is discarded by `unwrap_or(())`. -/
structure CliSyncEnv where
  addOk : Bool
  commitOk : Bool
  pushOk : Bool
deriving DecidableEq

/-- `git_cli::git_sync`, translated from the source. -/
def cli_git_sync (env : CliSyncEnv) : Except GErr GOk :=
  match env.addOk with
  | true => Except.ok GOk.synced
  | false => Except.error GErr.stageFailed

/-! ## Derived definitions and concrete example states -/

/-- The persisted origin URL after `git_pull`, independent of the token and of
the network environment. -/
def postUrlP (repo : Repo) : Option Str :=
  match (ensure_https_remote repo).head with
  | HeadState.branch _ =>
    match (ensure_https_remote repo).originUrl with
    | none => none
    | some ou => some (normalize_url ou)
  | _ => (ensure_https_remote repo).originUrl

/-- The persisted origin URL after the embedded-backend `git_sync`. -/
def postUrlS (env : SyncEnv) (repo : Repo) : Option Str :=
  match env.stageOk, env.commitOk with
  | true, true =>
    match (ensure_https_remote repo).originUrl with
    | none => none
    | some ou => some (normalize_url ou)
  | _, _ => (ensure_https_remote repo).originUrl

/-- The persisted origin URL after `git_checkout_branch`. -/
def postUrlC (repo : Repo) : Option Str :=
  match (ensure_https_remote repo).originUrl with
  | none => none
  | some ou => some (normalize_url ou)

/-- A workspace with an HTTPS origin, HEAD on branch `main` at commit 5. -/
def exRepoMain : Repo :=
  ⟨some ("https://h/o/r".data), HeadState.branch ("main".data), [(("main".data), 5)], [], 3⟩

/-- An empty workspace: unborn HEAD, origin configured. -/
def exRepoUnborn : Repo :=
  ⟨some ("https://h/o/r".data), HeadState.unborn, [], [], 0⟩

/-- A workspace whose persisted origin URL already carries an inline
credential equal to the supplied token. -/
def exRepoTok : Repo :=
  ⟨some ("https://TOK@e/r".data), HeadState.branch ("m".data), [(("m".data), 1)], [], 0⟩

/-- A bare workspace with no origin remote. -/
def exRepoBare : Repo :=
  ⟨none, HeadState.unborn, [], [], 0⟩

/-- Environment: fetch succeeds, remote ref lands on commit 9, fast-forward. -/
def exEnvFF : PullEnv :=
  ⟨true, some 9, MAnalysis.fastForward, fun o => o + 100⟩

/-- Environment: fetch succeeds, remote ref lands on commit 9, diverged. -/
def exEnvDiv : PullEnv :=
  ⟨true, some 9, MAnalysis.normal, fun _ => 0⟩

/-- Environment: the fetch itself fails. -/
def exEnvFail : PullEnv :=
  ⟨false, none, MAnalysis.normal, fun _ => 0⟩

/-- Sync environment: staging and committing succeed, the push attempt fails. -/
def exSyncEnv : SyncEnv :=
  ⟨true, true, 42, false⟩

/-- Checkout environment: fetch succeeds and lands the branch on commit 9. -/
def exCoEnv : CoEnv :=
  ⟨true, some 9, fun _ => 0⟩

/-! ## String lemmas -/

theorem stripPre_self_append (p r : Str) : stripPre p (p ++ r) = some r := by
  induction p with
  | nil => rfl
  | cons a as ih => simp [stripPre, ih]

theorem stripPre_eq_some (p : Str) :
    ∀ u r : Str, stripPre p u = some r → u = p ++ r := by
  induction p with
  | nil =>
    intro u r h
    simp [stripPre] at h
    simp [h]
  | cons a as ih =>
    intro u r h
    match u with
    | [] => simp [stripPre] at h
    | b :: bs =>
      simp [stripPre] at h
      obtain ⟨hab, hrest⟩ := h
      have := ih bs r hrest
      simp [hab, this]

theorem splitAtChar_eq_some (c : Char) :
    ∀ u b a : Str, splitAtChar c u = some (b, a) → u = b ++ c :: a ∧ c ∉ b := by
  intro u
  induction u with
  | nil => intro b a h; simp [splitAtChar] at h
  | cons d rest ih =>
    intro b a h
    by_cases hdc : d = c
    · simp [splitAtChar, hdc] at h
      obtain ⟨hb, ha⟩ := h
      subst hb; subst ha
      simp [hdc]
    · simp [splitAtChar, hdc] at h
      match h2 : splitAtChar c rest with
      | none => rw [h2] at h; simp at h
      | some (pre, post) =>
        rw [h2] at h
        simp at h
        obtain ⟨hb, ha⟩ := h
        obtain ⟨hrest, hnotin⟩ := ih pre post h2
        subst hb; subst ha
        constructor
        · simp [hrest]
        · simp [hnotin]
          intro hcd
          exact hdc hcd.symm

theorem splitAtChar_eq_none (c : Char) :
    ∀ u : Str, c ∉ u → splitAtChar c u = none := by
  intro u
  induction u with
  | nil => intro _; rfl
  | cons d rest ih =>
    intro h
    have hdc : ¬ d = c := by
      intro he; exact h (by simp [he])
    have hrest : c ∉ rest := by
      intro hm; exact h (by simp [hm])
    simp [splitAtChar, hdc, ih hrest]

theorem splitAtChar_mk (c : Char) :
    ∀ h p : Str, c ∉ h → splitAtChar c (h ++ c :: p) = some (h, p) := by
  intro h
  induction h with
  | nil => intro p _; simp [splitAtChar]
  | cons d rest ih =>
    intro p hnot
    have hdc : ¬ d = c := by
      intro he; exact hnot (by simp [he])
    have hrest : c ∉ rest := by
      intro hm; exact hnot (by simp [hm])
    simp [splitAtChar, hdc, ih p hrest]

/-! ## URL-function lemmas -/

theorem normalize_url_of_no_git_at (u : Str) (h : stripPre ("git@".data) u = none) :
    normalize_url u = u := by
  unfold normalize_url
  rw [h]

theorem normalize_url_of_no_colon (u rest : Str)
    (h1 : stripPre ("git@".data) u = some rest)
    (h2 : splitAtChar ':' rest = none) :
    normalize_url u = u := by
  unfold normalize_url
  rw [h1]
  dsimp only
  rw [h2]

theorem normalize_url_of_ssh (u rest host path : Str)
    (h1 : stripPre ("git@".data) u = some rest)
    (h2 : splitAtChar ':' rest = some (host, path)) :
    normalize_url u = ("https://".data) ++ host ++ '/' :: path := by
  unfold normalize_url
  rw [h1]
  dsimp only
  rw [h2]

theorem clean_url_of_no_https (u : Str) (h : stripPre ("https://".data) u = none) :
    clean_url u = u := by
  unfold clean_url
  rw [h]

theorem clean_url_https_no_at (rest : Str) (h2 : splitAtChar '@' rest = none) :
    clean_url (("https://".data) ++ rest) = ("https://".data) ++ rest := by
  unfold clean_url
  rw [stripPre_self_append]
  dsimp only
  rw [h2]

theorem clean_url_https_at (rest pre post : Str)
    (h2 : splitAtChar '@' rest = some (pre, post)) :
    clean_url (("https://".data) ++ rest) = ("https://".data) ++ post := by
  unfold clean_url
  rw [stripPre_self_append]
  dsimp only
  rw [h2]

theorem stripPre_git_at_https (r : Str) :
    stripPre ("git@".data) (("https://".data) ++ r) = none := rfl

/-- `normalize_url` is idempotent. -/
theorem normalize_url_idem (u : Str) :
    normalize_url (normalize_url u) = normalize_url u := by
  match h1 : stripPre ("git@".data) u with
  | none =>
    rw [normalize_url_of_no_git_at u h1]
    exact normalize_url_of_no_git_at u h1
  | some rest =>
    match h2 : splitAtChar ':' rest with
    | none =>
      rw [normalize_url_of_no_colon u rest h1 h2]
      exact normalize_url_of_no_colon u rest h1 h2
    | some (host, path) =>
      rw [normalize_url_of_ssh u rest host path h1 h2]
      have h3 : stripPre ("git@".data) (("https://".data) ++ host ++ '/' :: path) = none := by
        have := stripPre_git_at_https (host ++ '/' :: path)
        simpa using this
      exact normalize_url_of_no_git_at _ h3

/-- `clean_url` on a URL with at most one `@` is idempotent. -/
theorem clean_url_idem_of_count (u : Str) (h : List.count '@' u ≤ 1) :
    clean_url (clean_url u) = clean_url u := by
  match h1 : stripPre ("https://".data) u with
  | none =>
    rw [clean_url_of_no_https u h1]
    exact clean_url_of_no_https u h1
  | some rest =>
    have hu : u = ("https://".data) ++ rest := stripPre_eq_some _ u rest h1
    have hcount : List.count '@' rest ≤ 1 := by
      rw [hu, List.count_append] at h
      omega
    match h2 : splitAtChar '@' rest with
    | none =>
      have hclean : clean_url u = ("https://".data) ++ rest := by
        rw [hu]
        exact clean_url_https_no_at rest h2
      rw [hclean]
      exact clean_url_https_no_at rest h2
    | some (pre, post) =>
      obtain ⟨hrest, hnotin⟩ := splitAtChar_eq_some '@' rest pre post h2
      have hpost : '@' ∉ post := by
        rw [hrest, List.count_append, List.count_cons] at hcount
        simp at hcount
        have : List.count '@' post = 0 := by omega
        exact List.count_eq_zero.mp this
      have hclean : clean_url u = ("https://".data) ++ post := by
        rw [hu]
        exact clean_url_https_at rest pre post h2
      rw [hclean]
      exact clean_url_https_no_at post (splitAtChar_eq_none '@' post hpost)

/-! ## Credential-callback lemmas -/

theorem credCallback_snd (tok : Str) (r : CredReq) (st : Bool) :
    (credCallback tok r st).2 = (st || r.userPass) := by
  unfold credCallback
  cases hr : r.userPass <;> cases st <;> simp [hr]

theorem runCreds_append (tok : Str) (l₁ l₂ : List CredReq) :
    ∀ st : Bool,
      runCreds tok (l₁ ++ l₂) st = runCreds tok l₁ st ++ runCreds tok l₂ (stAfter l₁ st) := by
  induction l₁ with
  | nil => intro st; simp [runCreds, stAfter]
  | cons r rs ih =>
    intro st
    simp only [List.cons_append, runCreds, stAfter, List.cons.injEq, true_and]
    rw [credCallback_snd]
    exact ih (st || r.userPass)

theorem stAfter_true (l : List CredReq) : stAfter l true = true := by
  induction l with
  | nil => rfl
  | cons r rs ih => simp [stAfter, ih]

theorem providedCount_run_true (tok : Str) (l : List CredReq) :
    providedCount (runCreds tok l true) = 0 := by
  induction l with
  | nil => rfl
  | cons r rs ih =>
    cases hr : r.userPass <;> simp [runCreds, credCallback, hr, providedCount, ih]

theorem providedCount_run_le (tok : Str) (l : List CredReq) :
    ∀ st : Bool, providedCount (runCreds tok l st) ≤ 1 := by
  induction l with
  | nil => intro st; simp [runCreds, providedCount]
  | cons r rs ih =>
    intro st
    cases st with
    | true =>
      rw [providedCount_run_true]
      omega
    | false =>
      cases hr : r.userPass with
      | true =>
        simp [runCreds, credCallback, hr, providedCount, providedCount_run_true]
      | false =>
        simpa [runCreds, credCallback, hr, providedCount] using ih false

/-! ## Repository-operation lemmas -/

theorem ensure_head (r : Repo) : (ensure_https_remote r).head = r.head := by
  unfold ensure_https_remote
  split <;> rfl

theorem ensure_branches (r : Repo) : (ensure_https_remote r).branches = r.branches := by
  unfold ensure_https_remote
  split <;> rfl

theorem ensure_remoteRefs (r : Repo) : (ensure_https_remote r).remoteRefs = r.remoteRefs := by
  unfold ensure_https_remote
  split <;> rfl

theorem ensure_workTree (r : Repo) : (ensure_https_remote r).workTree = r.workTree := by
  unfold ensure_https_remote
  split <;> rfl

theorem ensure_originUrl_cases (r : Repo) :
    (ensure_https_remote r).originUrl = r.originUrl
      ∨ (ensure_https_remote r).originUrl = some (normalize_url (r.originUrl.getD [])) := by
  unfold ensure_https_remote
  split
  · right; rfl
  · left; rfl

theorem ensure_originUrl_none (r : Repo) :
    (ensure_https_remote r).originUrl = none ↔ r.originUrl = none := by
  unfold ensure_https_remote
  split
  case isTrue h =>
    constructor
    · intro hc; cases hc
    · intro hr
      exfalso
      apply h.2
      rw [hr]
      rfl
  case isFalse h => exact Iff.rfl

theorem ensure_norm (r : Repo) (ou : Str)
    (h : (ensure_https_remote r).originUrl = some ou) :
    normalize_url ou = normalize_url (r.originUrl.getD []) := by
  unfold ensure_https_remote at h
  split at h
  case isTrue hc =>
    simp only [Option.some.injEq] at h
    rw [← h, normalize_url_idem]
  case isFalse hc =>
    rw [h]
    rfl

/-- First-match lookup after `setA` on the same key. -/
theorem lookupA_setA_self {α : Type} (k : Str) (v : α) (m : List (Str × α)) :
    lookupA k (setA k v m) = some v := by
  show lookupA k ((k, v) :: m) = some v
  rw [lookupA]
  simp

/-- Lookup after deleting the key. -/
theorem lookupA_removeA_self {α : Type} (k : Str) (m : List (Str × α)) :
    lookupA k (removeA k m) = none := by
  induction m with
  | nil => rfl
  | cons p rest ih =>
    obtain ⟨k', v⟩ := p
    by_cases hk : k = k'
    · subst hk
      simp [removeA, ih]
    · simp [removeA, lookupA, hk, ih]

theorem pull_repo_originUrl (env : PullEnv) (repo : Repo) (token : Option Str) :
    (git_pull env repo token).repo.originUrl = postUrlP repo := by
  unfold git_pull postUrlP
  cases h1 : (ensure_https_remote repo).head with
  | unborn => rfl
  | detached => rfl
  | branch bn =>
    dsimp only
    cases h2 : (ensure_https_remote repo).originUrl with
    | none =>
      dsimp only
      exact h2
    | some ou =>
      dsimp only
      cases h3 : env.fetchOk with
      | false => rfl
      | true =>
        dsimp only
        cases h4 : lookupA bn (pullFetched env repo bn).remoteRefs with
        | none => rfl
        | some remoteOid =>
          dsimp only
          cases h5 : env.analysis with
          | upToDate => rfl
          | normal => rfl
          | fastForward =>
            dsimp only
            cases h6 : lookupA bn (ensure_https_remote repo).branches with
            | none => rfl
            | some _ => rfl

theorem commitStep_originUrl (env : SyncEnv) (repo : Repo) :
    (commitStep env repo).originUrl = (ensure_https_remote repo).originUrl := by
  unfold commitStep
  cases h : (ensure_https_remote repo).head <;> rfl

theorem sync_repo_originUrl (env : SyncEnv) (repo : Repo) (token : Option Str) :
    (git_sync env repo token).repo.originUrl = postUrlS env repo := by
  unfold git_sync postUrlS
  cases h1 : env.stageOk with
  | false => rfl
  | true =>
    cases h2 : env.commitOk with
    | false => rfl
    | true =>
      cases h3 : (ensure_https_remote repo).originUrl with
      | none =>
        show (commitStep env repo).originUrl = none
        rw [commitStep_originUrl]
        exact h3
      | some ou => rfl

theorem checkout_repo_originUrl (env : CoEnv) (repo : Repo) (bn : Str) (token : Option Str) :
    (git_checkout_branch env repo bn token).repo.originUrl = postUrlC repo := by
  unfold git_checkout_branch postUrlC
  cases h2 : (ensure_https_remote repo).originUrl with
  | none =>
    dsimp only
    exact h2
  | some ou =>
    dsimp only
    cases h4 : lookupA bn (coFetched env repo bn).remoteRefs with
    | none => rfl
    | some oid => rfl

theorem postUrlP_cases (repo : Repo) :
    postUrlP repo = repo.originUrl
      ∨ postUrlP repo = some (normalize_url (repo.originUrl.getD [])) := by
  unfold postUrlP
  cases h1 : (ensure_https_remote repo).head with
  | unborn => exact ensure_originUrl_cases repo
  | detached => exact ensure_originUrl_cases repo
  | branch bn =>
    dsimp only
    cases h2 : (ensure_https_remote repo).originUrl with
    | none =>
      left
      exact ((ensure_originUrl_none repo).mp h2).symm
    | some ou =>
      right
      dsimp only
      rw [ensure_norm repo ou h2]

theorem postUrlS_cases (env : SyncEnv) (repo : Repo) :
    postUrlS env repo = repo.originUrl
      ∨ postUrlS env repo = some (normalize_url (repo.originUrl.getD [])) := by
  unfold postUrlS
  cases h1 : env.stageOk with
  | false => exact ensure_originUrl_cases repo
  | true =>
    cases h2 : env.commitOk with
    | false => exact ensure_originUrl_cases repo
    | true =>
      dsimp only
      cases h3 : (ensure_https_remote repo).originUrl with
      | none =>
        left
        exact ((ensure_originUrl_none repo).mp h3).symm
      | some ou =>
        right
        dsimp only
        rw [ensure_norm repo ou h3]

theorem postUrlC_cases (repo : Repo) :
    postUrlC repo = repo.originUrl
      ∨ postUrlC repo = some (normalize_url (repo.originUrl.getD [])) := by
  unfold postUrlC
  cases h2 : (ensure_https_remote repo).originUrl with
  | none =>
    left
    exact ((ensure_originUrl_none repo).mp h2).symm
  | some ou =>
    right
    dsimp only
    rw [ensure_norm repo ou h2]

/-- Trace of `remote_set_url` writes during `git_pull` when HEAD is a branch
and an origin remote is configured: first the auth URL, then the restored
clean URL — on every such exit path. -/
theorem pull_writes (env : PullEnv) (repo : Repo) (token : Option Str) (bn : Str) (ou : Str)
    (hhead : repo.head = HeadState.branch bn)
    (hou : (ensure_https_remote repo).originUrl = some ou) :
    (git_pull env repo token).writes
      = [authUrlOf token (normalize_url ou), normalize_url ou] := by
  have hh : (ensure_https_remote repo).head = HeadState.branch bn := by
    rw [ensure_head]; exact hhead
  unfold git_pull
  rw [hh]
  dsimp only
  rw [hou]
  dsimp only
  cases h3 : env.fetchOk with
  | false => rfl
  | true =>
    dsimp only
    cases h4 : lookupA bn (pullFetched env repo bn).remoteRefs with
    | none => rfl
    | some remoteOid =>
      dsimp only
      cases h5 : env.analysis with
      | upToDate => rfl
      | normal => rfl
      | fastForward =>
        dsimp only
        cases h6 : lookupA bn (ensure_https_remote repo).branches with
        | none => rfl
        | some _ => rfl

/-- Trace of `remote_set_url` writes during `git_checkout_branch` when an
origin remote is configured. -/
theorem checkout_writes (env : CoEnv) (repo : Repo) (bn : Str) (token : Option Str) (ou : Str)
    (hou : (ensure_https_remote repo).originUrl = some ou) :
    (git_checkout_branch env repo bn token).writes
      = [authUrlOf token (normalize_url ou), normalize_url ou] := by
  unfold git_checkout_branch
  rw [hou]
  dsimp only
  cases h4 : lookupA bn (coFetched env repo bn).remoteRefs with
  | none => rfl
  | some oid => rfl

/-- Trace of `remote_set_url` writes during the embedded-backend `git_sync`
when staging and committing succeed and an origin remote is configured. -/
theorem sync_writes (env : SyncEnv) (repo : Repo) (token : Option Str) (ou : Str)
    (hstage : env.stageOk = true) (hcommit : env.commitOk = true)
    (hou : (ensure_https_remote repo).originUrl = some ou) :
    (git_sync env repo token).writes
      = [authUrlOf token (normalize_url ou), normalize_url ou] := by
  unfold git_sync
  rw [hstage, hcommit]
  dsimp only
  rw [hou]

theorem stAfter_append (l₁ l₂ : List CredReq) :
    ∀ st : Bool, stAfter (l₁ ++ l₂) st = stAfter l₂ (stAfter l₁ st) := by
  induction l₁ with
  | nil => intro st; rfl
  | cons r rs ih =>
    intro st
    simp only [List.cons_append, stAfter]
    exact ih (st || r.userPass)

theorem postUrlP_of (repo : Repo) (bn ou : Str)
    (hh : (ensure_https_remote repo).head = HeadState.branch bn)
    (hou : (ensure_https_remote repo).originUrl = some ou) :
    postUrlP repo = some (normalize_url ou) := by
  unfold postUrlP
  rw [hh]
  dsimp only
  rw [hou]

theorem postUrlS_of (env : SyncEnv) (repo : Repo) (ou : Str)
    (hstage : env.stageOk = true) (hcommit : env.commitOk = true)
    (hou : (ensure_https_remote repo).originUrl = some ou) :
    postUrlS env repo = some (normalize_url ou) := by
  unfold postUrlS
  rw [hstage, hcommit]
  dsimp only
  rw [hou]

theorem postUrlC_of (repo : Repo) (ou : Str)
    (hou : (ensure_https_remote repo).originUrl = some ou) :
    postUrlC repo = some (normalize_url ou) := by
  unfold postUrlC
  rw [hou]

/-- During `git_pull` the local branch map is either left unchanged or updated
in a single pointer move to the fetched remote commit — there is no other
write to the branch tips (in particular no merge-commit creation). -/
theorem pull_branches_cases (env : PullEnv) (repo : Repo) (tok : Option Str) (bn : Str)
    (hhead : repo.head = HeadState.branch bn) :
    (git_pull env repo tok).repo.branches = repo.branches
      ∨ ∃ r, env.fetchedRef = some r
          ∧ (git_pull env repo tok).repo.branches = setA bn r repo.branches := by
  have hh : (ensure_https_remote repo).head = HeadState.branch bn := by
    rw [ensure_head]; exact hhead
  unfold git_pull
  rw [hh]
  dsimp only
  cases h2 : (ensure_https_remote repo).originUrl with
  | none =>
    left
    exact ensure_branches repo
  | some ou =>
    dsimp only
    cases h3 : env.fetchOk with
    | false =>
      left
      exact ensure_branches repo
    | true =>
      dsimp only
      cases hf : env.fetchedRef with
      | none =>
        have hlook : lookupA bn (pullFetched env repo bn).remoteRefs = none := by
          unfold pullFetched
          dsimp only
          rw [hf]
          exact lookupA_removeA_self bn _
        rw [hlook]
        left
        exact ensure_branches repo
      | some r =>
        have hlook : lookupA bn (pullFetched env repo bn).remoteRefs = some r := by
          unfold pullFetched
          dsimp only
          rw [hf]
          exact lookupA_setA_self bn r _
        rw [hlook]
        dsimp only
        cases h5 : env.analysis with
        | upToDate =>
          left
          exact ensure_branches repo
        | normal =>
          left
          exact ensure_branches repo
        | fastForward =>
          dsimp only
          cases h6 : lookupA bn (ensure_https_remote repo).branches with
          | none =>
            left
            exact ensure_branches repo
          | some l =>
            right
            refine ⟨r, rfl, ?_⟩
            show setA bn r (ensure_https_remote repo).branches = setA bn r repo.branches
            rw [ensure_branches]

/-! ## Claims -/

/-- C2: for every single network call made with a supplied token, the
credential callback hands out the username/token pair at most once; when the
host requests user/password credentials a second time on the same call
(after an earlier user/password request), the callback answers with an
authentication error instead of retrying the same credential. -/
theorem c2_single_attempt (tok : Str) (reqs xs ys zs : List CredReq) (a b : CredReq)
    (ha : a.userPass = true) (hb : b.userPass = true) :
    providedCount (runCreds tok reqs false) ≤ 1
      ∧ runCreds tok (xs ++ a :: (ys ++ b :: zs)) false
          = runCreds tok (xs ++ a :: ys) false
              ++ CredResult.authError :: runCreds tok zs true := by
  constructor
  · exact providedCount_run_le tok reqs false
  · have e1 : xs ++ a :: (ys ++ b :: zs) = (xs ++ a :: ys) ++ (b :: zs) := by simp
    rw [e1, runCreds_append]
    have hst : stAfter (xs ++ a :: ys) false = true := by
      rw [stAfter_append]
      show stAfter (a :: ys) (stAfter xs false) = true
      simp only [stAfter, ha, Bool.or_true]
      exact stAfter_true ys
    rw [hst]
    simp [runCreds, credCallback, hb]

/-- C2 witness: a host that asks for user/password twice in one call gets the
credential exactly once and an authentication error the second time. -/
theorem c2_witness :
    providedCount (runCreds ("tok".data) [⟨true⟩, ⟨true⟩] false) ≤ 1
      ∧ runCreds ("tok".data) ([] ++ ⟨true⟩ :: ([] ++ ⟨true⟩ :: [])) false
          = runCreds ("tok".data) ([] ++ ⟨true⟩ :: []) false
              ++ CredResult.authError :: runCreds ("tok".data) [] true :=
  c2_single_attempt ("tok".data) [⟨true⟩, ⟨true⟩] [] [] [] ⟨true⟩ ⟨true⟩ rfl rfl

/-- C7 counterexample: `normalize_url` leaves an SSH shorthand with user
`alice` untouched (only the literal `git@` prefix is converted), and an HTTPS
URL with inline credentials passes through with the credentials NOT stripped
— the claimed stripped form is not produced. -/
theorem c7_counterexample :
    normalize_url ("alice@h:o/r".data) = ("alice@h:o/r".data)
      ∧ normalize_url ("https://u:p@h/o/r".data) = ("https://u:p@h/o/r".data)
      ∧ normalize_url ("https://u:p@h/o/r".data) ≠ ("https://h/o/r".data) := by
  decide

/-- C7 amended: `normalize_url` converts exactly the SSH shorthands beginning
with the literal user `git` — `git@host:path` becomes `https://host/path`
(splitting at the first colon) — and returns every other URL unchanged,
including HTTPS URLs with inline credentials; credential stripping is the
separate function `clean_url`. -/
theorem c7_amended (host path u rest : Str)
    (hc : ':' ∉ host)
    (hng : stripPre ("git@".data) u = none)
    (hnc : splitAtChar ':' rest = none) :
    normalize_url (("git@".data) ++ host ++ ':' :: path)
        = ("https://".data) ++ host ++ '/' :: path
      ∧ normalize_url u = u
      ∧ normalize_url (("git@".data) ++ rest) = ("git@".data) ++ rest := by
  refine ⟨?_, normalize_url_of_no_git_at u hng, ?_⟩
  · exact normalize_url_of_ssh _ (host ++ ':' :: path) host path
      (stripPre_self_append ("git@".data) (host ++ ':' :: path))
      (splitAtChar_mk ':' host path hc)
  · exact normalize_url_of_no_colon _ rest (stripPre_self_append ("git@".data) rest) hnc

/-- C7 witness: the amended statement at concrete URLs. -/
theorem c7_witness :
    normalize_url (("git@".data) ++ ("github.com".data) ++ ':' :: ("o/r".data))
        = ("https://".data) ++ ("github.com".data) ++ '/' :: ("o/r".data)
      ∧ normalize_url ("https://x".data) = ("https://x".data)
      ∧ normalize_url (("git@".data) ++ ("nocolon".data)) = ("git@".data) ++ ("nocolon".data) :=
  c7_amended ("github.com".data) ("o/r".data) ("https://x".data) ("nocolon".data)
    (by decide) (by decide) (by decide)

/-- C8 counterexample: `clean_url` strips only up to the FIRST `@`, so on a
URL with two `@` signs a second application strips again — `clean_url` is not
idempotent. -/
theorem c8_counterexample :
    clean_url (clean_url ("https://a@b@c".data)) ≠ clean_url ("https://a@b@c".data) := by
  decide

/-- C8 amended: `normalize_url` is idempotent on every URL; `clean_url` is
idempotent on every URL containing at most one `@` character (it is not
idempotent in general). -/
theorem c8_amended (u : Str) :
    normalize_url (normalize_url u) = normalize_url u
      ∧ (List.count '@' u ≤ 1 → clean_url (clean_url u) = clean_url u) :=
  ⟨normalize_url_idem u, fun h => clean_url_idem_of_count u h⟩

/-- C8 witness: the amended statement at a concrete single-`@` URL. -/
theorem c8_witness :
    normalize_url (normalize_url ("https://u@h/o".data)) = normalize_url ("https://u@h/o".data)
      ∧ clean_url (clean_url ("https://u@h/o".data)) = clean_url ("https://u@h/o".data) :=
  ⟨(c8_amended ("https://u@h/o".data)).1,
   (c8_amended ("https://u@h/o".data)).2 (by decide)⟩

/-- C9: the embedded backend's token-injection function returns the same
credential-free URL (`clean_url` of the input) regardless of which token is
supplied — the token is never embedded into any URL. -/
theorem c9_token_never_embedded (u t₁ t₂ : Str) :
    inject_token u t₁ = inject_token u t₂ ∧ inject_token u t₁ = clean_url u :=
  ⟨rfl, rfl⟩

/-- C10: on a repository whose HEAD is unborn (empty repository), the
embedded-backend pull returns `up_to_date` successfully, performs no
`remote_set_url` write, and its entire outcome is independent of the network
environment and of the token — no fetch is performed. -/
theorem c10_unborn_pull (env env' : PullEnv) (repo : Repo) (tok tok' : Option Str)
    (h : repo.head = HeadState.unborn) :
    (git_pull env repo tok).res = Except.ok GOk.upToDate
      ∧ (git_pull env repo tok).writes = []
      ∧ git_pull env repo tok = git_pull env' repo tok' := by
  have hh : (ensure_https_remote repo).head = HeadState.unborn := by
    rw [ensure_head]; exact h
  unfold git_pull
  rw [hh]
  exact ⟨rfl, rfl, rfl⟩

/-- C10 witness: a concrete empty repository, two very different environments
and tokens — same `up_to_date` result either way. -/
theorem c10_witness :
    (git_pull exEnvFF exRepoUnborn (some ("TOK".data))).res = Except.ok GOk.upToDate
      ∧ (git_pull exEnvFF exRepoUnborn (some ("TOK".data))).writes = []
      ∧ git_pull exEnvFF exRepoUnborn (some ("TOK".data)) = git_pull exEnvFail exRepoUnborn none :=
  c10_unborn_pull exEnvFF exEnvFail exRepoUnborn (some ("TOK".data)) none rfl

/-- C1 counterexample: a workspace whose persisted origin URL already carries
the supplied token survives a token-bearing pull with the token still present
in the read-back origin URL — the restore path writes `normalize_url` of the
pre-call URL, which does not strip inline credentials. -/
theorem c1_counterexample :
    substrB ("TOK".data)
        (((git_pull exEnvFail exRepoTok (some ("TOK".data))).repo.originUrl).getD [])
      = true := by
  decide

/-- C1 amended: after pull, sync or checkout_branch the persisted origin URL
is independent of whether or which token was supplied, and equals either the
pre-call URL unchanged or its SSH→HTTPS normalization — the operation never
writes the token into the configuration, but it also does not strip a token
that was already present. -/
theorem c1_amended (envP : PullEnv) (envS : SyncEnv) (envC : CoEnv) (repo : Repo)
    (tok bn : Str) :
    ((git_pull envP repo (some tok)).repo.originUrl
        = (git_pull envP repo none).repo.originUrl
      ∧ ((git_pull envP repo (some tok)).repo.originUrl = repo.originUrl
         ∨ (git_pull envP repo (some tok)).repo.originUrl
             = some (normalize_url (repo.originUrl.getD []))))
    ∧ ((git_sync envS repo (some tok)).repo.originUrl
        = (git_sync envS repo none).repo.originUrl
      ∧ ((git_sync envS repo (some tok)).repo.originUrl = repo.originUrl
         ∨ (git_sync envS repo (some tok)).repo.originUrl
             = some (normalize_url (repo.originUrl.getD []))))
    ∧ ((git_checkout_branch envC repo bn (some tok)).repo.originUrl
        = (git_checkout_branch envC repo bn none).repo.originUrl
      ∧ ((git_checkout_branch envC repo bn (some tok)).repo.originUrl = repo.originUrl
         ∨ (git_checkout_branch envC repo bn (some tok)).repo.originUrl
             = some (normalize_url (repo.originUrl.getD [])))) := by
  refine ⟨⟨?_, ?_⟩, ⟨?_, ?_⟩, ⟨?_, ?_⟩⟩
  · rw [pull_repo_originUrl, pull_repo_originUrl]
  · rw [pull_repo_originUrl]
    exact postUrlP_cases repo
  · rw [sync_repo_originUrl, sync_repo_originUrl]
  · rw [sync_repo_originUrl]
    exact postUrlS_cases envS repo
  · rw [checkout_repo_originUrl, checkout_repo_originUrl]
  · rw [checkout_repo_originUrl]
    exact postUrlC_cases repo

/-- C3: a pull whose fetched history is diverged (merge analysis neither
up-to-date nor fast-forward) returns the not-fast-forward error and leaves
the working tree, the local branch tips and HEAD unchanged — no merge is
attempted. -/
theorem c3_diverged_pull (env : PullEnv) (repo : Repo) (tok : Option Str)
    (bn ou : Str) (r : Oid)
    (hhead : repo.head = HeadState.branch bn)
    (hou : (ensure_https_remote repo).originUrl = some ou)
    (hfetch : env.fetchOk = true)
    (href : env.fetchedRef = some r)
    (hana : env.analysis = MAnalysis.normal) :
    (git_pull env repo tok).res = Except.error GErr.notFastForward
      ∧ (git_pull env repo tok).repo.workTree = repo.workTree
      ∧ (git_pull env repo tok).repo.branches = repo.branches
      ∧ (git_pull env repo tok).repo.head = repo.head := by
  have hh : (ensure_https_remote repo).head = HeadState.branch bn := by
    rw [ensure_head]; exact hhead
  have hlook : lookupA bn (pullFetched env repo bn).remoteRefs = some r := by
    unfold pullFetched
    dsimp only
    rw [href]
    exact lookupA_setA_self bn r _
  unfold git_pull
  rw [hh]
  dsimp only
  rw [hou]
  dsimp only
  rw [hfetch]
  dsimp only
  rw [hlook]
  dsimp only
  rw [hana]
  dsimp only
  refine ⟨rfl, ?_, ?_, ?_⟩
  · show (pullFetched env repo bn).workTree = repo.workTree
    unfold pullFetched
    exact ensure_workTree repo
  · show (pullFetched env repo bn).branches = repo.branches
    unfold pullFetched
    exact ensure_branches repo
  · show (pullFetched env repo bn).head = repo.head
    unfold pullFetched
    exact ensure_head repo

/-- C3 witness: a concrete diverged pull errors and leaves tree, branches and
HEAD as they were. -/
theorem c3_witness :
    (git_pull exEnvDiv exRepoMain (some ("TOK".data))).res = Except.error GErr.notFastForward
      ∧ (git_pull exEnvDiv exRepoMain (some ("TOK".data))).repo.workTree = exRepoMain.workTree
      ∧ (git_pull exEnvDiv exRepoMain (some ("TOK".data))).repo.branches = exRepoMain.branches
      ∧ (git_pull exEnvDiv exRepoMain (some ("TOK".data))).repo.head = exRepoMain.head :=
  c3_diverged_pull exEnvDiv exRepoMain (some ("TOK".data)) ("main".data)
    ("https://h/o/r".data) 9 rfl (by decide) rfl rfl rfl

/-- C4: a pull whose merge analysis is fast-forward returns `pulled`, moves
the local branch pointer to exactly the fetched upstream commit and checks
the working tree out at that commit; an up-to-date analysis returns
`up_to_date` with branch tips and tree untouched; and over every environment
and token, pull either leaves the branch map unchanged or performs the single
pointer move to the fetched commit — never any other update (no three-way
merge). -/
theorem c4_fast_forward_pull (env : PullEnv) (repo : Repo) (tok : Option Str)
    (bn ou : Str) (r l : Oid)
    (hhead : repo.head = HeadState.branch bn)
    (hou : (ensure_https_remote repo).originUrl = some ou)
    (hfetch : env.fetchOk = true)
    (href : env.fetchedRef = some r) :
    ((env.analysis = MAnalysis.fastForward → lookupA bn repo.branches = some l →
        (git_pull env repo tok).res = Except.ok GOk.pulled
          ∧ lookupA bn (git_pull env repo tok).repo.branches = some r
          ∧ (git_pull env repo tok).repo.workTree = env.treeOf r)
      ∧ (env.analysis = MAnalysis.upToDate →
          (git_pull env repo tok).res = Except.ok GOk.upToDate
            ∧ (git_pull env repo tok).repo.branches = repo.branches
            ∧ (git_pull env repo tok).repo.workTree = repo.workTree))
    ∧ (∀ (env2 : PullEnv) (tok2 : Option Str),
        (git_pull env2 repo tok2).repo.branches = repo.branches
          ∨ ∃ r2, env2.fetchedRef = some r2
              ∧ (git_pull env2 repo tok2).repo.branches = setA bn r2 repo.branches) := by
  have hh : (ensure_https_remote repo).head = HeadState.branch bn := by
    rw [ensure_head]; exact hhead
  have hlook : lookupA bn (pullFetched env repo bn).remoteRefs = some r := by
    unfold pullFetched
    dsimp only
    rw [href]
    exact lookupA_setA_self bn r _
  refine ⟨⟨?_, ?_⟩, fun env2 tok2 => pull_branches_cases env2 repo tok2 bn hhead⟩
  · intro hana hl
    have hl' : lookupA bn (ensure_https_remote repo).branches = some l := by
      rw [ensure_branches]; exact hl
    unfold git_pull
    rw [hh]
    dsimp only
    rw [hou]
    dsimp only
    rw [hfetch]
    dsimp only
    rw [hlook]
    dsimp only
    rw [hana]
    dsimp only
    rw [hl']
    dsimp only
    refine ⟨rfl, ?_, rfl⟩
    exact lookupA_setA_self bn r _
  · intro hana
    unfold git_pull
    rw [hh]
    dsimp only
    rw [hou]
    dsimp only
    rw [hfetch]
    dsimp only
    rw [hlook]
    dsimp only
    rw [hana]
    dsimp only
    refine ⟨rfl, ?_, ?_⟩
    · show (pullFetched env repo bn).branches = repo.branches
      unfold pullFetched
      exact ensure_branches repo
    · show (pullFetched env repo bn).workTree = repo.workTree
      unfold pullFetched
      exact ensure_workTree repo

/-- C4 witness: a concrete fast-forward pull moves `main` to the fetched
commit 9 and checks out its tree. -/
theorem c4_witness :
    (git_pull exEnvFF exRepoMain none).res = Except.ok GOk.pulled
      ∧ lookupA ("main".data) (git_pull exEnvFF exRepoMain none).repo.branches = some 9
      ∧ (git_pull exEnvFF exRepoMain none).repo.workTree = exEnvFF.treeOf 9 :=
  ((c4_fast_forward_pull exEnvFF exRepoMain none ("main".data) ("https://h/o/r".data) 9 5
      rfl (by decide) rfl rfl).1.1) rfl rfl

/-- C5 counterexample: with a token supplied, the URL temporarily written by
pull is NOT a token-bearing form — it is the credential-stripped normalized
URL, which does not contain the token. -/
theorem c5_counterexample :
    (git_pull exEnvFail exRepoMain (some ("TOK".data))).writes
        = [("https://h/o/r".data), ("https://h/o/r".data)]
      ∧ substrB ("TOK".data)
          ((git_pull exEnvFail exRepoMain (some ("TOK".data))).writes.headD [])
        = false := by
  decide

/-- C5 amended: around every embedded-backend network call with a token
(pull, checkout_branch, and the push inside sync once staging and committing
succeeded), the remote URL is temporarily set to the credential-stripped
normalized URL — never a token-bearing form, the token travels only in the
credential callback — and the normalized pre-call URL is restored afterwards
on every exit path that follows the temporary set. -/
theorem c5_amended (envP : PullEnv) (envS : SyncEnv) (envC : CoEnv) (repo : Repo)
    (tok bn bc ou : Str)
    (hhead : repo.head = HeadState.branch bn)
    (hou : (ensure_https_remote repo).originUrl = some ou) :
    ((git_pull envP repo (some tok)).writes
        = [clean_url (normalize_url ou), normalize_url ou]
      ∧ (git_pull envP repo (some tok)).repo.originUrl = some (normalize_url ou))
    ∧ ((git_checkout_branch envC repo bc (some tok)).writes
        = [clean_url (normalize_url ou), normalize_url ou]
      ∧ (git_checkout_branch envC repo bc (some tok)).repo.originUrl
          = some (normalize_url ou))
    ∧ (envS.stageOk = true → envS.commitOk = true →
        (git_sync envS repo (some tok)).writes
          = [clean_url (normalize_url ou), normalize_url ou]
        ∧ (git_sync envS repo (some tok)).repo.originUrl = some (normalize_url ou)) := by
  have hh : (ensure_https_remote repo).head = HeadState.branch bn := by
    rw [ensure_head]; exact hhead
  refine ⟨⟨?_, ?_⟩, ⟨?_, ?_⟩, fun hst hco => ⟨?_, ?_⟩⟩
  · exact pull_writes envP repo (some tok) bn ou hhead hou
  · rw [pull_repo_originUrl]
    exact postUrlP_of repo bn ou hh hou
  · exact checkout_writes envC repo bc (some tok) ou hou
  · rw [checkout_repo_originUrl]
    exact postUrlC_of repo ou hou
  · exact sync_writes envS repo (some tok) ou hst hco hou
  · rw [sync_repo_originUrl]
    exact postUrlS_of envS repo ou hst hco hou

/-- C5 witness: the amended statement on a concrete workspace — the two
writes are the stripped URL then the restored clean URL, for all three
operations. -/
theorem c5_witness :
    ((git_pull exEnvDiv exRepoMain (some ("TOK".data))).writes
        = [clean_url (normalize_url ("https://h/o/r".data)),
           normalize_url ("https://h/o/r".data)]
      ∧ (git_pull exEnvDiv exRepoMain (some ("TOK".data))).repo.originUrl
          = some (normalize_url ("https://h/o/r".data)))
    ∧ ((git_checkout_branch exCoEnv exRepoMain ("dev".data) (some ("TOK".data))).writes
        = [clean_url (normalize_url ("https://h/o/r".data)),
           normalize_url ("https://h/o/r".data)]
      ∧ (git_checkout_branch exCoEnv exRepoMain ("dev".data) (some ("TOK".data))).repo.originUrl
          = some (normalize_url ("https://h/o/r".data)))
    ∧ ((git_sync exSyncEnv exRepoMain (some ("TOK".data))).writes
        = [clean_url (normalize_url ("https://h/o/r".data)),
           normalize_url ("https://h/o/r".data)]
      ∧ (git_sync exSyncEnv exRepoMain (some ("TOK".data))).repo.originUrl
          = some (normalize_url ("https://h/o/r".data))) := by
  have h := c5_amended exEnvDiv exSyncEnv exCoEnv exRepoMain ("TOK".data)
    ("main".data) ("dev".data) ("https://h/o/r".data) rfl (by decide)
  exact ⟨h.1, h.2.1, h.2.2 rfl rfl⟩

/-- C6 counterexample: in the process backend, a failing commit step does not
fail `sync` — the result is still `synced`, so "staging and committing
propagate their failures" is false for the commit step of this backend. -/
theorem c6_counterexample :
    cli_git_sync ⟨true, false, true⟩ = Except.ok GOk.synced := rfl

/-- C6 amended: in the embedded backend, staging and committing propagate
their failures and the push outcome is ignored (sync still returns synced);
in the process backend only staging propagates — the commit invocation's
result and the push result are both discarded, and sync returns synced
whenever staging succeeds. -/
theorem c6_amended (env : SyncEnv) (cenv : CliSyncEnv) (repo : Repo) (tok : Option Str) :
    (env.stageOk = false → (git_sync env repo tok).res = Except.error GErr.stageFailed)
    ∧ (env.stageOk = true → env.commitOk = false →
        (git_sync env repo tok).res = Except.error GErr.commitFailed)
    ∧ (env.stageOk = true → env.commitOk = true →
        (git_sync env repo tok).res = Except.ok GOk.synced)
    ∧ (cenv.addOk = false → cli_git_sync cenv = Except.error GErr.stageFailed)
    ∧ (cenv.addOk = true → cli_git_sync cenv = Except.ok GOk.synced) := by
  refine ⟨?_, ?_, ?_, ?_, ?_⟩
  · intro h
    unfold git_sync
    rw [h]
  · intro h1 h2
    unfold git_sync
    rw [h1, h2]
  · intro h1 h2
    unfold git_sync
    rw [h1, h2]
    dsimp only
    cases h3 : (ensure_https_remote repo).originUrl with
    | none => rfl
    | some ou => rfl
  · intro h
    unfold cli_git_sync
    rw [h]
  · intro h
    unfold cli_git_sync
    rw [h]

/-- C6 witness: an embedded-backend sync whose push fails still returns
synced, and a process-backend sync whose staging fails propagates the error. -/
theorem c6_witness :
    (git_sync exSyncEnv exRepoBare none).res = Except.ok GOk.synced
      ∧ cli_git_sync ⟨false, true, true⟩ = Except.error GErr.stageFailed :=
  ⟨(c6_amended exSyncEnv ⟨false, true, true⟩ exRepoBare none).2.2.1 rfl rfl,
   (c6_amended exSyncEnv ⟨false, true, true⟩ exRepoBare none).2.2.2.1 rfl⟩

end Cafezin
